import Mathlib

/-!
Verification of the ig-mcp-server tool registry and execution orchestrator.

This development shallowly embeds the Go code of the repository
(pkg/tools/tools.go, pkg/deployer/installer.go and the tool files) into
Lean and proves the behavioural claims of the specification against the
embedding.  Go strings are modelled as byte lists (List UInt8) where byte
length and byte slicing matter, and as Lean String elsewhere; Go maps
are modelled as association lists written through an overwriting setter,
matching Go map-write semantics; fallible Go functions return Except.
-/

namespace IgMcp

/-! ## Output bounding (pkg/tools/tools.go, truncateResults / maxResultLen)

Go strings are byte strings: len(s) counts bytes and s[:n] slices bytes,
so results are modelled as List UInt8.  The literal fragments of the
fmt.Sprintf format strings are UTF-8 byte sequences of the corresponding
Lean string literals. -/

/-- const maxResultLen = 64 * 1024 (tools.go line 245). -/
def maxResultLen : Nat := 64 * 1024

/-- UTF-8 bytes of a string literal, used to embed Go string constants;
this is the byte list underlying String.toUTF8. -/
def strBytes (s : String) : List UInt8 := s.data.flatMap String.utf8EncodeChar

/-- Bytes of the leading fragment of both Sprintf formats. -/
def resultsOpen : List UInt8 := strBytes "\n<results>"

/-- Bytes of the trailing fragment of the non-truncated Sprintf format. -/
def resultsClose : List UInt8 := strBytes "</results>\n"

/-- Bytes of the trailing fragment of the truncated Sprintf format,
carrying the explicit truncation flag element. -/
def resultsCloseTruncated : List UInt8 := strBytes "</results>\n<isTruncated>true</isTruncated>\n"

/-- Bytes of the ellipsis marker appended after hard truncation. -/
def ellipsisBytes : List UInt8 := strBytes "…"

/-- func truncateResults(results string) string (tools.go lines 570-575):
if len(results) > maxResultLen the first maxResultLen bytes plus an
ellipsis are wrapped with the truncation flag, otherwise results is
wrapped unchanged. -/
def truncateResults (results : List UInt8) : List UInt8 :=
  if results.length > maxResultLen then
    resultsOpen ++ (results.take maxResultLen ++ ellipsisBytes) ++ resultsCloseTruncated
  else
    resultsOpen ++ results ++ resultsClose

example : strBytes "ab" = [97, 98] := by decide

/-- C1: truncateResults wraps with the truncation flag iff the byte length
of the result exceeds 64 KiB; when truncated the embedded content is
exactly the first 65536 bytes followed by the ellipsis marker, and when
not truncated the embedded content is the result unchanged.  The flag is
characterised structurally: the flagged closing fragment ends the output
exactly when the input exceeds the ceiling. -/
theorem truncateResults_correct (s : List UInt8) :
    truncateResults s =
      (if maxResultLen < s.length then
        resultsOpen ++ (s.take maxResultLen ++ ellipsisBytes) ++ resultsCloseTruncated
      else resultsOpen ++ s ++ resultsClose)
    ∧ (resultsCloseTruncated <:+ truncateResults s ↔ maxResultLen < s.length) := by
  by_cases h : maxResultLen < s.length
  · refine ⟨by simp [truncateResults, h], ?_⟩
    simp only [truncateResults, if_pos h, h, iff_true]
    exact List.suffix_append _ _
  · refine ⟨by simp [truncateResults, h], ?_⟩
    simp only [truncateResults, if_neg h, h, iff_false]
    intro hT
    have hP : resultsClose <:+ resultsOpen ++ s ++ resultsClose := List.suffix_append _ _
    rcases List.suffix_or_suffix_of_suffix hT hP with h1 | h2
    · exact absurd h1 (by decide)
    · exact absurd h2 (by decide)

/-! ## Gadget data model (api.GadgetInfo and metadatav1.GadgetMetadata)

The Execution Client returns a GadgetInfo per image.  Its Metadata field
is an opaque yaml document parsed by the external yaml library; the
embedding carries the outcome of that deterministic parse directly as an
Except value.  Go maps are association lists written through the
overwriting setter setKV, matching Go map-write semantics. -/

/-- Look up a key in an association list (Go map read). -/
def lookupKV {α : Type} : List (String × α) → String → Option α
  | [], _ => none
  | (k', v) :: rest, k => if k' = k then some v else lookupKV rest k

/-- Write a key in an association list (Go map write: overwrite if the
key exists, append otherwise). -/
def setKV {α : Type} : List (String × α) → String → α → List (String × α)
  | [], k, v => [(k, v)]
  | (k', v') :: rest, k, v =>
    if k' = k then (k, v) :: rest else (k', v') :: setKV rest k v

/-- Go map read with zero value: m[k] yields the empty string when the
key is absent. -/
def getKVD (m : List (String × String)) (k : String) : String :=
  (lookupKV m k).getD ""

/-- api.Param: key, prefix, description and default value.  The Go field
named Prefix is rendered here as pfx because of a Lean keyword clash. -/
structure ParamDesc where
  key : String
  pfx : String
  description : String
  defaultValue : String
deriving DecidableEq

/-- A field of the first data source: full name plus its annotation map
(description and possible-values annotations are read from it). -/
structure FieldInfo where
  fullName : String
  annots : List (String × String)
deriving DecidableEq

/-- api.DataSource: only the field list is consumed by tool synthesis. -/
structure DataSource where
  fields : List FieldInfo
deriving DecidableEq

/-- metadatav1.GadgetMetadata: the name and description consumed by tool
synthesis. -/
structure GadgetMetadata where
  name : String
  description : String
deriving DecidableEq

instance {ε α : Type} [DecidableEq ε] [DecidableEq α] : DecidableEq (Except ε α) := fun a b =>
  match a, b with
  | .error e₁, .error e₂ =>
    if h : e₁ = e₂ then isTrue (congrArg Except.error h)
    else isFalse fun hh => h (Except.error.inj hh)
  | .ok v₁, .ok v₂ =>
    if h : v₁ = v₂ then isTrue (congrArg Except.ok h)
    else isFalse fun hh => h (Except.ok.inj hh)
  | .error _, .ok _ => isFalse fun hh => Except.noConfusion hh
  | .ok _, .error _ => isFalse fun hh => Except.noConfusion hh

/-- api.GadgetInfo as consumed by the registry.  metadata is the outcome
of yaml.Unmarshal on the raw metadata document. -/
structure GadgetInfo where
  imageName : String
  metadata : Except String GadgetMetadata
  params : List ParamDesc
  dataSources : List DataSource
deriving DecidableEq

/-- metadatav1.DescriptionAnnotation (external constant). -/
def descriptionAnnotKey : String := "description"

/-- metadatav1.ValueOneOfAnnotation (external constant). -/
def valueOneOfAnnotKey : String := "value.one-of"

/-! ## Tool synthesis (tools.go, toolFromGadgetInfo lines 411-473) -/

/-- FieldData bound into the description template. -/
structure FieldData where
  name : String
  description : String
  possibleValues : String
deriving DecidableEq

/-- ToolData bound into the description template. -/
structure ToolData where
  name : String
  description : String
  environment : String
  fields : List FieldData
deriving DecidableEq

/-- One property of the params object schema: {"type": ..., "description": ...}. -/
structure SchemaProp where
  typ : String
  description : String
deriving DecidableEq

/-- The mcp.Tool data the registry synthesizes: name, rendered
description, the string-typed params properties keyed by prefix+key, and
the read-only hint.  The static option scaffolding shared by every
gadget tool (required params object, timeout number, background flag) is
identical across tools and not carried. -/
structure McpTool where
  name : String
  description : String
  paramsSchema : List (String × SchemaProp)
  readOnly : Bool
deriving DecidableEq

/-- func normalizeToolName (tools.go lines 529-532): spaces become
underscores. -/
def normalizeToolName (name : String) : String :=
  name.replace " " "_"

/-- One line of the fields block of templates/toolDescription.tmpl. -/
def renderFieldLine (f : FieldData) : String :=
  "- " ++ f.name
    ++ (if f.description ≠ "" then "(" ++ f.description ++ ")" else "")
    ++ (if f.possibleValues ≠ "" then "[" ++ f.possibleValues ++ "]" else "")
    ++ "\n"

/-- The rendering of templates/toolDescription.tmpl on a ToolData value:
fixed text with the name, description, environment and field lines
interpolated. -/
def renderToolDescription (td : ToolData) : String :=
  "The " ++ td.name ++ " tool is designed to " ++ td.description ++ " in "
    ++ td.environment ++ " environments using a gadget.\n"
    ++ "It uses a map of key-value pairs called params to configure its behavior but does not require any specific parameters to function.\n\n"
    ++ "<run-mode>\nThis tool can be run in two modes: foreground (default) and background. When running in background mode, make sure to retrieve results using `get-results`\nbefore the gadget is stopped, as results are not stored permanently.\n</run-mode>\n\n"
    ++ "<fields>\nOutput can be filtered using the `operator.filter.filter` param.\n\nFIELD (Description) [PossibleValues]:\n"
    ++ String.join (td.fields.map renderFieldLine)
    ++ "</fields>\n\n<output>\nThe tool produces a JSON object as output when not running in the background; review the data and provide a concise summary to the user.\nAfter the gadget run if output is truncated, suggest user to use filtering or sorting/limiting to refine results.\n</output>"

/-- func (r *GadgetToolRegistry) toolFromGadgetInfo (tools.go lines
411-473): parse the metadata, collect the first data source's fields
with their description and possible-values annotations, render the
description template, and build the string-typed params schema keyed by
prefix+key.  env is the registry's environment field. -/
def toolFromGadgetInfo (env : String) (info : GadgetInfo) : Except String McpTool :=
  match info.metadata with
  | .error e => .error ("unmarshalling gadget metadata: " ++ e)
  | .ok md =>
    let fields : List FieldData :=
      match info.dataSources with
      | [] => []
      | ds :: _ =>
        ds.fields.map fun f =>
          { name := f.fullName
            description := getKVD f.annots descriptionAnnotKey
            possibleValues := getKVD f.annots valueOneOfAnnotKey }
    let td : ToolData :=
      { name := normalizeToolName md.name
        description := md.description
        environment := env
        fields := fields }
    let schema : List (String × SchemaProp) :=
      info.params.foldl
        (fun m p => setKV m (p.pfx ++ p.key) { typ := "string", description := p.description }) []
    .ok
      { name := normalizeToolName md.name
        description := renderToolDescription td
        paramsSchema := schema
        readOnly := true }

/-- A sample gadget descriptor used by witnesses. -/
def sampleInfo : GadgetInfo :=
  { imageName := "ghcr.io/inspektor-gadget/gadget/trace_open:latest"
    metadata := .ok { name := "trace open", description := "trace open syscalls" }
    params := [{ key := "interval", pfx := "operator.oci.ebpf.", description := "interval", defaultValue := "1s" }]
    dataSources := [{ fields := [{ fullName := "proc.comm", annots := [("description", "process name")] }] }] }

/-- C9: tool synthesis is deterministic: applied twice to the same
descriptor (same metadata, params and data sources) in the same registry
environment, toolFromGadgetInfo yields the same result, in particular
byte-identical description text and identical parameter schema. -/
theorem tool_synthesis_deterministic (env : String) (i₁ i₂ : GadgetInfo) (h : i₁ = i₂) :
    toolFromGadgetInfo env i₁ = toolFromGadgetInfo env i₂
      ∧ (toolFromGadgetInfo env i₁).map McpTool.description
          = (toolFromGadgetInfo env i₂).map McpTool.description
      ∧ (toolFromGadgetInfo env i₁).map McpTool.paramsSchema
          = (toolFromGadgetInfo env i₂).map McpTool.paramsSchema := by
  subst h
  exact ⟨rfl, rfl, rfl⟩

/-- Witness for C9 at the sample descriptor. -/
theorem tool_synthesis_deterministic_witness :
    sampleInfo = sampleInfo
      ∧ toolFromGadgetInfo "kubernetes" sampleInfo = toolFromGadgetInfo "kubernetes" sampleInfo :=
  ⟨rfl, (tool_synthesis_deterministic "kubernetes" sampleInfo sampleInfo rfl).1⟩

/-! ## Registry bootstrap (tools.go, Prepare / getDefaultTools /
getToolsForEnvironment / getGadgetTools, lines 298-409)

The concurrent metadata fan-out of getGadgetTools delivers one result per
image on a buffered channel in a nondeterministic arrival order; the
embedding takes the received list of (image, GetInfo outcome) pairs as an
argument, and theorems quantify over its order.  The deployment probe
isInspektorGadgetDeployed is an ambient cluster query; its outcome is an
argument of the environment-tool computation. -/

/-- The administrative tools, with names, descriptions and read-only
hints from their constructors (stop_tool/results in the session tool
file, newWaitTool, deploy_tool.go, undeploy_tool.go, the is-deployed
tool file); their own argument schemas are not consumed by any claim and
are left empty. -/
def newStopTool : McpTool :=
  { name := "stop-gadget", description := "Stops a gadget with an ID"
    paramsSchema := [], readOnly := true }

def newGetResultsTool : McpTool :=
  { name := "get-results"
    description := "Returns the collected events from a gadget instance with a specific ID. Please review the data and provide a concise summary to the user."
    paramsSchema := [], readOnly := true }

def newWaitTool : McpTool :=
  { name := "wait", description := "Wait for a given amount of time"
    paramsSchema := [], readOnly := true }

def newDeployTool : McpTool :=
  { name := "deploy_inspektor_gadget", description := "Deploy Inspektor Gadget on the target system"
    paramsSchema := [], readOnly := false }

def newUndeployTool : McpTool :=
  { name := "undeploy_inspektor_gadget", description := "Undeploy Inspektor Gadget from the target system"
    paramsSchema := [], readOnly := false }

def newIsDeployedTool : McpTool :=
  { name := "is_inspektor_gadget_deployed"
    description := "Check if Inspektor Gadget is deployed on the target system. Doesn't rely on if mcp server deployed it or not but checks if the Inspektor Gadget resources are present in the cluster."
    paramsSchema := [], readOnly := true }

/-- The result-collection loop of getGadgetTools (tools.go lines
388-406): a failed fetch is logged and skipped, a successful fetch is
synthesized; a synthesis error aborts with an error; tools accumulate in
arrival order. -/
def collectGadgetTools (env : String) :
    List (String × Except String GadgetInfo) → List McpTool → Except String (List McpTool)
  | [], acc => .ok acc
  | (_, .error _) :: rest, acc => collectGadgetTools env rest acc
  | (_, .ok info) :: rest, acc =>
    match toolFromGadgetInfo env info with
    | .error e => .error ("creating tool from gadget info for " ++ info.imageName ++ ": " ++ e)
    | .ok t => collectGadgetTools env rest (acc ++ [t])

/-- func (r *GadgetToolRegistry) getGadgetTools (tools.go lines 357-409)
applied to the received results. -/
def getGadgetTools (env : String) (received : List (String × Except String GadgetInfo)) :
    Except String (List McpTool) :=
  collectGadgetTools env received []

/-- func (r *GadgetToolRegistry) getToolsForEnvironment (tools.go lines
333-355): in the kubernetes environment the deploy/undeploy/is-deployed
tools are registered and the deployment probe gates gadget discovery; a
probe error, a not-deployed probe, or a gadget-tool error falls back to
the environment base tools. -/
def getToolsForEnvironment (env : String) (probe : Except String (Bool × String))
    (received : List (String × Except String GadgetInfo)) : List McpTool :=
  if env = "kubernetes" then
    let base := [newDeployTool, newUndeployTool, newIsDeployedTool]
    match probe with
    | .error _ => base
    | .ok (deployed, _) =>
      if deployed then
        match getGadgetTools env received with
        | .error _ => base
        | .ok g => base ++ g
      else base
  else
    match getGadgetTools env received with
    | .error _ => []
    | .ok g => g

/-- func (r *GadgetToolRegistry) getDefaultTools (tools.go lines
320-331): session stop/results tools and the wait tool, then the
environment-specific tools. -/
def getDefaultTools (env : String) (probe : Except String (Bool × String))
    (received : List (String × Except String GadgetInfo)) : List McpTool :=
  [newStopTool, newGetResultsTool, newWaitTool] ++ getToolsForEnvironment env probe received

/-- Insert one tool into the registry map under its name
(registerDefaultTools, tools.go line 310). -/
def insertTool (m : List (String × McpTool)) (t : McpTool) : List (String × McpTool) :=
  setKV m t.name t

/-- The registry tool map after Prepare on a fresh registry (tools.go
lines 298-318): every default tool registered under its name. -/
def prepareToolMap (env : String) (probe : Except String (Bool × String))
    (received : List (String × Except String GadgetInfo)) : List (String × McpTool) :=
  (getDefaultTools env probe received).foldl insertTool []

/-- The error value Prepare returns to its caller (tools.go line 304:
return nil, unconditionally). -/
def prepareReturnValue (_env : String) (_probe : Except String (Bool × String))
    (_received : List (String × Except String GadgetInfo)) : Option String :=
  none

theorem lookupKV_setKV_self {α : Type} (m : List (String × α)) (k : String) (v : α) :
    lookupKV (setKV m k v) k = some v := by
  induction m with
  | nil => simp [setKV, lookupKV]
  | cons hd tl ih =>
    obtain ⟨k', v'⟩ := hd
    by_cases h : k' = k
    · simp [setKV, h, lookupKV]
    · simp [setKV, h, lookupKV, ih]

theorem lookupKV_setKV_other {α : Type} (m : List (String × α)) (k k' : String) (v : α)
    (h : k' ≠ k) : lookupKV (setKV m k v) k' = lookupKV m k' := by
  have hkk : k ≠ k' := Ne.symm h
  induction m with
  | nil => simp [setKV, lookupKV, hkk]
  | cons hd tl ih =>
    obtain ⟨k'', v''⟩ := hd
    by_cases hk : k'' = k
    · subst hk
      simp [setKV, lookupKV, hkk]
    · simp only [setKV, if_neg hk, lookupKV]
      by_cases hk' : k'' = k'
      · simp [hk']
      · simp [hk', ih]

/-- A tool found in the registry map built by inserting ts over m was
inserted from ts or was already present in m. -/
theorem lookupKV_foldl_insertTool (ts : List McpTool) (m : List (String × McpTool))
    (k : String) (t : McpTool) (h : lookupKV (ts.foldl insertTool m) k = some t) :
    t ∈ ts ∨ lookupKV m k = some t := by
  induction ts generalizing m with
  | nil => exact .inr h
  | cons hd tl ih =>
    rcases ih (insertTool m hd) h with hmem | hbase
    · exact .inl (List.mem_cons_of_mem _ hmem)
    · by_cases hk : k = hd.name
      · subst hk
        rw [insertTool, lookupKV_setKV_self] at hbase
        exact .inl (by simp [← Option.some.inj hbase])
      · rw [insertTool, lookupKV_setKV_other _ _ _ _ hk] at hbase
        exact .inr hbase

/-- Name presence in the registry map survives later insertions. -/
theorem lookupKV_foldl_isSome (ts : List McpTool) (m : List (String × McpTool))
    (k : String) (h : (lookupKV m k).isSome) :
    (lookupKV (ts.foldl insertTool m) k).isSome := by
  induction ts generalizing m with
  | nil => exact h
  | cons hd tl ih =>
    refine ih (insertTool m hd) ?_
    by_cases hk : k = hd.name
    · subst hk
      rw [insertTool, lookupKV_setKV_self]
      rfl
    · rw [insertTool, lookupKV_setKV_other _ _ _ _ hk]
      exact h

/-- The tool computed by synthesis on the sample descriptor. -/
def sampleTool : McpTool :=
  (toolFromGadgetInfo "kubernetes" sampleInfo).toOption.getD
    { name := "", description := "", paramsSchema := [], readOnly := true }

/-- C2: when the metadata fetch fails for image A and succeeds for image
B, bootstrap yields exactly the tool synthesized from B (in either
arrival order of the two fetch results), B's tool is registered in the
tool map, nothing coming from A is registered, and Prepare reports no
error to its caller. -/
theorem prepare_skips_failed_image
    (a b e ns : String) (infoB : GadgetInfo) (tB : McpTool)
    (received : List (String × Except String GadgetInfo))
    (horder : received = [(a, .error e), (b, .ok infoB)]
      ∨ received = [(b, .ok infoB), (a, .error e)])
    (hsynth : toolFromGadgetInfo "kubernetes" infoB = .ok tB) :
    getGadgetTools "kubernetes" received = .ok [tB]
    ∧ prepareReturnValue "kubernetes" (.ok (true, ns)) received = none
    ∧ lookupKV (prepareToolMap "kubernetes" (.ok (true, ns)) received) tB.name = some tB
    ∧ ∀ k t, lookupKV (prepareToolMap "kubernetes" (.ok (true, ns)) received) k = some t →
        t ∈ [newStopTool, newGetResultsTool, newWaitTool, newDeployTool, newUndeployTool,
             newIsDeployedTool, tB] := by
  have hg : getGadgetTools "kubernetes" received = .ok [tB] := by
    rcases horder with h | h <;> subst h <;>
      simp [getGadgetTools, collectGadgetTools, hsynth]
  have htools : getDefaultTools "kubernetes" (.ok (true, ns)) received
      = [newStopTool, newGetResultsTool, newWaitTool, newDeployTool, newUndeployTool,
         newIsDeployedTool, tB] := by
    simp [getDefaultTools, getToolsForEnvironment, hg]
  have hmap : prepareToolMap "kubernetes" (.ok (true, ns)) received
      = [newStopTool, newGetResultsTool, newWaitTool, newDeployTool, newUndeployTool,
         newIsDeployedTool, tB].foldl insertTool [] := by
    rw [prepareToolMap, htools]
  refine ⟨hg, rfl, ?_, ?_⟩
  · rw [hmap]
    simp only [List.foldl, insertTool]
    exact lookupKV_setKV_self _ _ _
  · intro k t hlook
    rw [hmap] at hlook
    rcases lookupKV_foldl_insertTool _ _ _ _ hlook with hmem | hbase
    · exact hmem
    · simp [lookupKV] at hbase

/-- Witness for C2: a failing image and the sample descriptor. -/
theorem prepare_skips_failed_image_witness :
    getGadgetTools "kubernetes"
        [("bad/image:latest", .error "fetch failed"), (sampleInfo.imageName, .ok sampleInfo)]
      = .ok [sampleTool] :=
  (prepare_skips_failed_image "bad/image:latest" sampleInfo.imageName "fetch failed" "gadget"
    sampleInfo sampleTool _ (.inl rfl) rfl).1

/-- Helper: in the kubernetes environment the environment tools always
start with the deploy, undeploy and is-deployed tools. -/
theorem k8sTools_shape (probe : Except String (Bool × String))
    (received : List (String × Except String GadgetInfo)) :
    ∃ rest, getToolsForEnvironment "kubernetes" probe received
      = [newDeployTool, newUndeployTool, newIsDeployedTool] ++ rest := by
  rcases probe with e | ⟨deployed, ns⟩
  · exact ⟨[], by simp [getToolsForEnvironment]⟩
  · cases deployed
    · exact ⟨[], by simp [getToolsForEnvironment]⟩
    · rcases hg : getGadgetTools "kubernetes" received with e | g
      · exact ⟨[], by simp [getToolsForEnvironment, hg]⟩
      · exact ⟨g, by simp [getToolsForEnvironment, hg]⟩

/-- C4 counterexample: in the linux environment (a valid target
environment), Prepare registers no deploy, undeploy or
deployment-status-check tool, so the claim fails as stated.  The input
is concrete: environment linux, empty image list. -/
theorem admin_tools_counterexample :
    lookupKV (prepareToolMap "linux" (.ok (false, "")) []) "deploy_inspektor_gadget" = none
    ∧ lookupKV (prepareToolMap "linux" (.ok (false, "")) []) "undeploy_inspektor_gadget" = none
    ∧ lookupKV (prepareToolMap "linux" (.ok (false, "")) []) "is_inspektor_gadget_deployed" = none :=
  ⟨rfl, rfl, rfl⟩

/-- C4 amended: after Prepare the tool set always contains the wait tool
and the stop-gadget and get-results session tools, and Prepare returns no
error, regardless of environment, probe outcome, and fetch results; the
deploy, undeploy and deployment-status-check tools are additionally
present whenever the environment is kubernetes (installed or not). -/
theorem admin_tools_registered_amended (env : String) (probe : Except String (Bool × String))
    (received : List (String × Except String GadgetInfo)) :
    prepareReturnValue env probe received = none
    ∧ (lookupKV (prepareToolMap env probe received) "stop-gadget").isSome = true
    ∧ (lookupKV (prepareToolMap env probe received) "get-results").isSome = true
    ∧ (lookupKV (prepareToolMap env probe received) "wait").isSome = true
    ∧ (env = "kubernetes" →
        (lookupKV (prepareToolMap env probe received) "deploy_inspektor_gadget").isSome = true
        ∧ (lookupKV (prepareToolMap env probe received) "undeploy_inspektor_gadget").isSome = true
        ∧ (lookupKV (prepareToolMap env probe received) "is_inspektor_gadget_deployed").isSome = true) := by
  have hmap : prepareToolMap env probe received
      = (getToolsForEnvironment env probe received).foldl insertTool
          ([newStopTool, newGetResultsTool, newWaitTool].foldl insertTool []) := by
    rw [prepareToolMap, getDefaultTools, List.foldl_append]
  refine ⟨rfl, ?_, ?_, ?_, ?_⟩
  · rw [hmap]; exact lookupKV_foldl_isSome _ _ _ rfl
  · rw [hmap]; exact lookupKV_foldl_isSome _ _ _ rfl
  · rw [hmap]; exact lookupKV_foldl_isSome _ _ _ rfl
  · intro h
    subst h
    obtain ⟨rest, hshape⟩ := k8sTools_shape probe received
    have hmap' : prepareToolMap "kubernetes" probe received
        = rest.foldl insertTool
            ([newStopTool, newGetResultsTool, newWaitTool, newDeployTool, newUndeployTool,
              newIsDeployedTool].foldl insertTool []) := by
      rw [hmap, hshape, List.foldl_append]
      rfl
    rw [hmap']
    exact ⟨lookupKV_foldl_isSome _ _ _ rfl, lookupKV_foldl_isSome _ _ _ rfl,
      lookupKV_foldl_isSome _ _ _ rfl⟩

/-- Witness for C4 amended: kubernetes environment with no images. -/
theorem admin_tools_registered_amended_witness :
    (lookupKV (prepareToolMap "kubernetes" (.ok (true, "gadget")) []) "stop-gadget").isSome = true
    ∧ (lookupKV (prepareToolMap "kubernetes" (.ok (true, "gadget")) []) "deploy_inspektor_gadget").isSome = true :=
  ⟨(admin_tools_registered_amended "kubernetes" (.ok (true, "gadget")) []).2.1,
    ((admin_tools_registered_amended "kubernetes" (.ok (true, "gadget")) []).2.2.2.2 rfl).1⟩

/-! ## Go duration formatting (time.Duration.String, external stdlib)

The handler writes (timeout / 2).String() into the parameter map.  The
formatting routine of the Go standard library is reproduced here:
durations are int64 nanosecond counts; sub-second values print with
ns/µs/ms units, larger ones with s/m/h units, fractions printed with
trailing zeros omitted. -/

/-- fmtFrac of the Go runtime: format the prec least significant digits
of v as a fraction, omitting trailing zeros, returning the fraction text
(with its leading dot, or empty) and v stripped of those digits.  Digits
are consumed least significant first; printing latches on the first
nonzero digit. -/
def fmtFracGo : Nat → Nat → Bool → String → String × Nat
  | v, 0, print, acc => ((if print then "." ++ acc else ""), v)
  | v, i + 1, print, acc =>
    let digit := v % 10
    let print' := print || digit ≠ 0
    fmtFracGo (v / 10) i print' (if print' then Nat.repr digit ++ acc else acc)

/-- time.Duration.String of the Go standard library on a nanosecond
count. -/
def goDurationString (d : Int) : String :=
  let u := d.natAbs
  let core :=
    if u < 1000000000 then
      if u = 0 then "0s"
      else if u < 1000 then Nat.repr u ++ "ns"
      else if u < 1000000 then
        let fv := fmtFracGo u 3 false ""
        Nat.repr fv.2 ++ fv.1 ++ "µs"
      else
        let fv := fmtFracGo u 6 false ""
        Nat.repr fv.2 ++ fv.1 ++ "ms"
    else
      let fv := fmtFracGo u 9 false ""
      let secs := Nat.repr (fv.2 % 60) ++ fv.1 ++ "s"
      let m := fv.2 / 60
      if m > 0 then
        let h := m / 60
        (if h > 0 then Nat.repr h ++ "h" else "") ++ Nat.repr (m % 60) ++ "m" ++ secs
      else secs
  (if d < 0 ∧ u ≠ 0 then "-" else "") ++ core

example : goDurationString (5 * 1000000000) = "5s" := by decide

example : goDurationString (3500000000) = "3.5s" := by decide

example : goDurationString 0 = "0s" := by decide

example : goDurationString 3701000000000 = "1h1m41s" := by decide

/-! ## Gadget invocation handler (tools.go, handlerFromGadgetInfo lines
475-519)

Caller-supplied MCP arguments are a JSON-decoded Go map; its values are
modelled by GoVal.  The handler outcome records whether the call
panicked (an unchecked type assertion failing), returned a validation
error, or dispatched to the Execution Client synchronously (Run) or
detached (RunDetached), together with the exact parameter map and
timeout dispatched. -/

/-- A JSON-decoded Go interface value as found in the arguments map. -/
inductive GoVal where
  | str (s : String)
  | num (n : Int)
  | boolean (b : Bool)
  | obj (fields : List (String × GoVal))

/-- Outcome of one handler call. -/
inductive HandlerOutcome where
  | panicked (msg : String)
  | errored (msg : String)
  | ranForeground (image : String) (params : List (String × String)) (timeoutNs : Int)
  | ranDetached (image : String) (params : List (String × String))
deriving DecidableEq

def nsPerSecond : Int := 1000000000

/-- func defaultParamsFromGadgetInfo (tools.go lines 521-527): every
declared parameter keyed by prefix+key with its default value. -/
def defaultParamsFromGadgetInfo (info : GadgetInfo) : List (String × String) :=
  info.params.foldl (fun m p => setKV m (p.pfx ++ p.key) p.defaultValue) []

/-- The periodic map-fetch-interval parameter key (tools.go line 489). -/
def mapFetchIntervalKey : String := "operator.oci.ebpf.map-fetch-interval"

/-- The caller params merge loop (tools.go lines 493-501): string values
overwrite the merged map, the first non-string value is a fatal
validation error for the call. -/
def mergeCallerParams : List (String × String) → List (String × GoVal) →
    Except String (List (String × String))
  | acc, [] => .ok acc
  | acc, (k, .str s) :: rest => mergeCallerParams (setKV acc k s) rest
  | _, (k, _) :: _ => .error ("invalid type for parameter " ++ k ++ ": expected string")

/-- The effective timeout in nanoseconds: the timeout argument in
seconds when present as a number (the float64 assertion succeeding),
default 10 seconds (tools.go lines 477, 485-487). -/
def effectiveTimeout (m : List (String × GoVal)) : Int :=
  match lookupKV m "timeout" with
  | some (.num t) => t * nsPerSecond
  | _ => 10 * nsPerSecond

/-- The map-fetch-interval rewrite (tools.go lines 488-491): when the
key is present in the merged-so-far parameter map and the call is not
background, overwrite it with (timeout / 2).String(). -/
def rewriteMapFetchInterval (params : List (String × String)) (background : Bool)
    (timeout : Int) : List (String × String) :=
  if (lookupKV params mapFetchIntervalKey).isSome && !background then
    setKV params mapFetchIntervalKey (goDurationString (timeout.tdiv 2))
  else params

/-- The handler body after the background assertion succeeded: read the
optional timeout, rewrite the map-fetch-interval default to half the
timeout when present and foreground, merge caller params, dispatch. -/
def handlerRest (info : GadgetInfo) (m : List (String × GoVal))
    (params0 : List (String × String)) (background : Bool) : HandlerOutcome :=
  let timeout : Int := effectiveTimeout m
  let params1 := rewriteMapFetchInterval params0 background timeout
  let merged :=
    match lookupKV m "params" with
    | some (.obj p) => mergeCallerParams params1 p
    | _ => .ok params1
  match merged with
  | .error e => .errored e
  | .ok ps =>
    if background then .ranDetached info.imageName ps
    else .ranForeground info.imageName ps timeout

/-- func (r *GadgetToolRegistry) handlerFromGadgetInfo (tools.go lines
475-519) applied to the caller arguments (none models a nil arguments
map).  The background argument is read through an unchecked type
assertion t.(bool): a present non-boolean value panics. -/
def handlerFromGadgetInfo (info : GadgetInfo) (args : Option (List (String × GoVal))) :
    HandlerOutcome :=
  let params0 := defaultParamsFromGadgetInfo info
  match args with
  | none => .ranForeground info.imageName params0 (10 * nsPerSecond)
  | some m =>
    match lookupKV m "background" with
    | some (.boolean b) => handlerRest info m params0 b
    | some _ => .panicked "interface conversion: interface \x7b\x7d is not bool"
    | none => handlerRest info m params0 false

/-- True exactly on the string constructor (the v.(string) assertion). -/
def GoVal.isString : GoVal → Bool
  | .str _ => true
  | _ => false

/-- True exactly on the errored outcome. -/
def HandlerOutcome.isError : HandlerOutcome → Bool
  | .errored _ => true
  | _ => false

/-- A descriptor whose declared parameters include the periodic
map-fetch-interval parameter. -/
def mfiInfo : GadgetInfo :=
  { imageName := "ghcr.io/inspektor-gadget/gadget/top_file:latest"
    metadata := .ok { name := "top file", description := "report files with the most io operations" }
    params := [{ key := "map-fetch-interval", pfx := "operator.oci.ebpf."
                 description := "interval between map fetches", defaultValue := "1s" }]
    dataSources := [] }

/-- C10: the gadget handler is not total: a present non-boolean
background argument makes the unchecked type assertion panic instead of
returning a validation error (concrete input: background = "yes"). -/
theorem background_nonbool_panics :
    handlerFromGadgetInfo sampleInfo (some [("background", GoVal.str "yes")])
      = .panicked "interface conversion: interface \x7b\x7d is not bool"
    ∧ (handlerFromGadgetInfo sampleInfo (some [("background", GoVal.str "yes")])).isError
        = false :=
  ⟨rfl, rfl⟩

/-- C5 counterexample: a call whose params object contains a non-string
value but whose background argument is a non-boolean value panics at the
background assertion rather than returning an error, so the claim as
universally stated fails at this concrete input. -/
theorem nonstring_param_counterexample :
    handlerFromGadgetInfo sampleInfo
        (some [("background", GoVal.num 1), ("params", GoVal.obj [("x", GoVal.num 2)])])
      = .panicked "interface conversion: interface \x7b\x7d is not bool"
    ∧ (handlerFromGadgetInfo sampleInfo
        (some [("background", GoVal.num 1), ("params", GoVal.obj [("x", GoVal.num 2)])])).isError
        = false :=
  ⟨rfl, rfl⟩

/-- Any params object holding a non-string value makes the merge loop
fail, whatever the accumulated map. -/
theorem mergeCallerParams_error : ∀ (p : List (String × GoVal)) (acc : List (String × String)),
    (∃ kv ∈ p, kv.2.isString = false) → ∃ e, mergeCallerParams acc p = .error e := by
  intro p
  induction p with
  | nil =>
    intro acc h
    rcases h with ⟨kv, hmem, _⟩
    simp at hmem
  | cons hd tl ih =>
    intro acc h
    obtain ⟨k, v⟩ := hd
    cases v with
    | str s =>
      rcases h with ⟨kv, hmem, hns⟩
      rcases List.mem_cons.mp hmem with heq | hmem'
      · rw [heq] at hns
        simp [GoVal.isString] at hns
      · exact ih (setKV acc k s) ⟨kv, hmem', hns⟩
    | num n => exact ⟨_, rfl⟩
    | boolean b => exact ⟨_, rfl⟩
    | obj o => exact ⟨_, rfl⟩

/-- The handler body fails with a validation error when the caller
params object holds a non-string value. -/
theorem handlerRest_errored (info : GadgetInfo) (m : List (String × GoVal))
    (params0 : List (String × String)) (background : Bool) (p : List (String × GoVal))
    (hp : lookupKV m "params" = some (.obj p))
    (hnon : ∃ kv ∈ p, kv.2.isString = false) :
    ∃ e, handlerRest info m params0 background = .errored e := by
  obtain ⟨e, he⟩ :=
    mergeCallerParams_error p (rewriteMapFetchInterval params0 background (effectiveTimeout m)) hnon
  exact ⟨e, by simp only [handlerRest, hp, he]⟩

/-- C5 amended: provided the background argument, when present, is a
boolean (so the unchecked assertion does not panic), a caller params
object containing at least one non-string value makes the handler return
a validation error, and neither Run nor RunDetached is invoked. -/
theorem nonstring_param_errors_amended (info : GadgetInfo) (m : List (String × GoVal))
    (p : List (String × GoVal))
    (hbg : lookupKV m "background" = none ∨ ∃ b, lookupKV m "background" = some (.boolean b))
    (hp : lookupKV m "params" = some (.obj p))
    (hnon : ∃ kv ∈ p, kv.2.isString = false) :
    ∃ e, handlerFromGadgetInfo info (some m) = .errored e := by
  rcases hbg with hb | ⟨b, hb⟩
  · obtain ⟨e, he⟩ :=
      handlerRest_errored info m (defaultParamsFromGadgetInfo info) false p hp hnon
    exact ⟨e, by simp only [handlerFromGadgetInfo, hb, he]⟩
  · obtain ⟨e, he⟩ :=
      handlerRest_errored info m (defaultParamsFromGadgetInfo info) b p hp hnon
    exact ⟨e, by simp only [handlerFromGadgetInfo, hb, he]⟩

/-- Witness for C5 amended: boolean background, one numeric param. -/
theorem nonstring_param_errors_amended_witness :
    ∃ e, handlerFromGadgetInfo sampleInfo
        (some [("background", GoVal.boolean false), ("params", GoVal.obj [("pid", GoVal.num 7)])])
      = .errored e :=
  nonstring_param_errors_amended sampleInfo
    [("background", GoVal.boolean false), ("params", GoVal.obj [("pid", GoVal.num 7)])]
    [("pid", GoVal.num 7)]
    (.inr ⟨false, rfl⟩) rfl ⟨("pid", GoVal.num 7), by simp, rfl⟩

/-- Merging an all-string params object returns ok and leaves every key
the object does not mention unchanged. -/
theorem mergeCallerParams_ok_preserves :
    ∀ (p : List (String × GoVal)) (acc : List (String × String)),
    (∀ kv ∈ p, ∃ s, kv.2 = GoVal.str s) →
    ∃ ps, mergeCallerParams acc p = .ok ps
      ∧ ∀ k, (∀ kv ∈ p, kv.1 ≠ k) → lookupKV ps k = lookupKV acc k := by
  intro p
  induction p with
  | nil =>
    intro acc _
    exact ⟨acc, rfl, fun _ _ => rfl⟩
  | cons hd tl ih =>
    intro acc hstr
    obtain ⟨k', v⟩ := hd
    obtain ⟨s, hs⟩ := hstr (k', v) (List.mem_cons_self _ _)
    simp only at hs
    subst hs
    obtain ⟨ps, heq, hpres⟩ :=
      ih (setKV acc k' s) (fun kv hmem => hstr kv (List.mem_cons_of_mem _ hmem))
    refine ⟨ps, heq, ?_⟩
    intro k havoid
    have hk' : k' ≠ k := havoid (k', GoVal.str s) (List.mem_cons_self _ _)
    rw [hpres k (fun kv hmem => havoid kv (List.mem_cons_of_mem _ hmem)),
      lookupKV_setKV_other _ _ _ _ (Ne.symm hk')]

/-- In a foreground call with the key present, the rewrite step installs
half the effective timeout. -/
theorem rewrite_lookup_foreground (params0 : List (String × String)) (t : Int)
    (hdef : (lookupKV params0 mapFetchIntervalKey).isSome = true) :
    lookupKV (rewriteMapFetchInterval params0 false t) mapFetchIntervalKey
      = some (goDurationString (t.tdiv 2)) := by
  simp [rewriteMapFetchInterval, hdef, lookupKV_setKV_self]

/-- In a background call the rewrite step does nothing. -/
theorem rewrite_background (params0 : List (String × String)) (t : Int) :
    rewriteMapFetchInterval params0 true t = params0 := by
  simp [rewriteMapFetchInterval]

/-- The handler body dispatches the merged parameter map, whose
map-fetch-interval entry is that of the rewrite step whenever the caller
object does not mention the key. -/
theorem handlerRest_ok (info : GadgetInfo) (m : List (String × GoVal))
    (params0 : List (String × String)) (b : Bool)
    (hcaller : lookupKV m "params" = none
      ∨ ∃ p, lookupKV m "params" = some (.obj p)
          ∧ (∀ kv ∈ p, ∃ s, kv.2 = GoVal.str s)
          ∧ (∀ kv ∈ p, kv.1 ≠ mapFetchIntervalKey)) :
    ∃ ps, handlerRest info m params0 b
        = (if b then .ranDetached info.imageName ps
           else .ranForeground info.imageName ps (effectiveTimeout m))
      ∧ lookupKV ps mapFetchIntervalKey
          = lookupKV (rewriteMapFetchInterval params0 b (effectiveTimeout m))
              mapFetchIntervalKey := by
  rcases hcaller with hnone | ⟨p, hp, hstr, havoid⟩
  · refine ⟨rewriteMapFetchInterval params0 b (effectiveTimeout m), ?_, rfl⟩
    simp only [handlerRest, hnone]
  · obtain ⟨ps, heq, hpres⟩ := mergeCallerParams_ok_preserves p
      (rewriteMapFetchInterval params0 b (effectiveTimeout m)) hstr
    refine ⟨ps, ?_, hpres mapFetchIntervalKey havoid⟩
    simp only [handlerRest, hp, heq]

/-- C3 counterexample: a foreground call whose merged set contains the
map-fetch-interval parameter but whose caller params object also
supplies it dispatches the caller value (99s), not half the effective
timeout (5s): the rewrite happens before the caller merge, so it does
not survive to dispatch. -/
theorem mapFetchInterval_counterexample :
    handlerFromGadgetInfo mfiInfo
        (some [("timeout", GoVal.num 10),
               ("params", GoVal.obj [(mapFetchIntervalKey, GoVal.str "99s")])])
      = .ranForeground mfiInfo.imageName [(mapFetchIntervalKey, "99s")] (10 * nsPerSecond)
    ∧ goDurationString (((10 : Int) * nsPerSecond).tdiv 2) = "5s"
    ∧ ("99s" : String) ≠ "5s" :=
  ⟨rfl, by decide, by decide⟩

/-- C3 amended: when an arguments map is supplied, the call is
foreground (background absent or false) and the default parameter set
contains the map-fetch-interval parameter, the handler rewrites it to
half the effective timeout before merging caller params, so the
dispatched value is half the timeout whenever the caller object does not
itself supply the key (a caller-supplied value takes precedence); in
background mode the parameter is left untouched. -/
theorem mapFetchInterval_rewrite_amended (info : GadgetInfo) (m : List (String × GoVal))
    (hdef : (lookupKV (defaultParamsFromGadgetInfo info) mapFetchIntervalKey).isSome = true)
    (hcaller : lookupKV m "params" = none
      ∨ ∃ p, lookupKV m "params" = some (.obj p)
          ∧ (∀ kv ∈ p, ∃ s, kv.2 = GoVal.str s)
          ∧ (∀ kv ∈ p, kv.1 ≠ mapFetchIntervalKey)) :
    ((lookupKV m "background" = none ∨ lookupKV m "background" = some (.boolean false)) →
      ∃ ps, handlerFromGadgetInfo info (some m)
          = .ranForeground info.imageName ps (effectiveTimeout m)
        ∧ lookupKV ps mapFetchIntervalKey
            = some (goDurationString ((effectiveTimeout m).tdiv 2)))
    ∧ (lookupKV m "background" = some (.boolean true) →
      ∃ ps, handlerFromGadgetInfo info (some m) = .ranDetached info.imageName ps
        ∧ lookupKV ps mapFetchIntervalKey
            = lookupKV (defaultParamsFromGadgetInfo info) mapFetchIntervalKey) := by
  constructor
  · intro hbg
    obtain ⟨ps, hout, hkey⟩ :=
      handlerRest_ok info m (defaultParamsFromGadgetInfo info) false hcaller
    have houtcome : handlerFromGadgetInfo info (some m)
        = handlerRest info m (defaultParamsFromGadgetInfo info) false := by
      rcases hbg with hb | hb <;> simp only [handlerFromGadgetInfo, hb]
    refine ⟨ps, ?_, ?_⟩
    · rw [houtcome, hout]
      simp
    · rw [hkey, rewrite_lookup_foreground _ _ hdef]
  · intro hbg
    obtain ⟨ps, hout, hkey⟩ :=
      handlerRest_ok info m (defaultParamsFromGadgetInfo info) true hcaller
    have houtcome : handlerFromGadgetInfo info (some m)
        = handlerRest info m (defaultParamsFromGadgetInfo info) true := by
      simp only [handlerFromGadgetInfo, hbg]
    refine ⟨ps, ?_, ?_⟩
    · rw [houtcome, hout]
      simp
    · rw [hkey, rewrite_background]

/-- Witness for C3 amended: timeout 10 seconds, no caller params object,
rewrites the interval to 5s. -/
theorem mapFetchInterval_rewrite_amended_witness :
    goDurationString ((effectiveTimeout [("timeout", GoVal.num 10)]).tdiv 2) = "5s"
    ∧ ∃ ps, handlerFromGadgetInfo mfiInfo (some [("timeout", GoVal.num 10)])
        = .ranForeground mfiInfo.imageName ps (effectiveTimeout [("timeout", GoVal.num 10)])
      ∧ lookupKV ps mapFetchIntervalKey
          = some (goDurationString ((effectiveTimeout [("timeout", GoVal.num 10)]).tdiv 2)) :=
  ⟨by decide,
    (mapFetchInterval_rewrite_amended mfiInfo [("timeout", GoVal.num 10)]
      (by decide) (.inl rfl)).1 (.inl rfl)⟩

/-! ## Helm deployer (pkg/deployer/installer.go)

The helm release store is an external collaborator; the outcome of the
helm get action (the release with its labels, or an error covering both
the action-config and get failures) is an argument.  Undeploy first runs
IsDeployed and only reaches the uninstall action when the ownership
check passes; the outcome type separates the three exits. -/

/-- const LabelKeyManagedBy (installer.go line 118). -/
def labelKeyManagedBy : String := "inspektor-gadget.io/managed-by"

/-- const LabelValueManagedBy (installer.go line 119). -/
def labelValueManagedBy : String := "ig-mcp-server"

/-- A helm release as consumed by IsDeployed: its label map. -/
structure HelmRelease where
  labels : List (String × String)
deriving DecidableEq

/-- func (h *helmDeployer) IsDeployed (installer.go lines 240-270): get
the release, then report whether its labels carry this manager's
ownership marker. -/
def helmIsDeployed (getResult : Except String HelmRelease) : Except String Bool :=
  match getResult with
  | .error e => .error ("run get action: " ++ e)
  | .ok rel =>
    .ok (rel.labels.any fun kv => kv.1 = labelKeyManagedBy ∧ kv.2 = labelValueManagedBy)

/-- The three exits of Undeploy. -/
inductive UndeployOutcome where
  | checkFailed (msg : String)
  | errNotDeployedByDeployer
  | uninstallRan (releaseName : String)
deriving DecidableEq

/-- func (h *helmDeployer) Undeploy (installer.go lines 201-238): apply
release-name default, check ownership via IsDeployed, return the
sentinel ErrNotDeployedByDeployer without uninstalling when the check
reports false, and only otherwise run the uninstall action. -/
def helmUndeploy (releaseName : String) (getResult : Except String HelmRelease) :
    UndeployOutcome :=
  let releaseName := if releaseName = "" then "gadget" else releaseName
  match helmIsDeployed getResult with
  | .error e => .checkFailed ("check if gadget is deployed: " ++ e)
  | .ok false => .errNotDeployedByDeployer
  | .ok true => .uninstallRan releaseName

/-- C6: undeploying a release that exists but does not carry this
manager's ownership marker label returns the distinct sentinel
(ErrNotDeployedByDeployer) and never reaches the uninstall action. -/
theorem undeploy_unmarked_release (rn : String) (rel : HelmRelease)
    (hunmarked : ∀ kv ∈ rel.labels, ¬(kv.1 = labelKeyManagedBy ∧ kv.2 = labelValueManagedBy)) :
    helmUndeploy rn (.ok rel) = .errNotDeployedByDeployer := by
  have hfalse : helmIsDeployed (.ok rel) = .ok false := by
    simp only [helmIsDeployed, Except.ok.injEq]
    rw [List.any_eq_false]
    intro kv hmem
    simpa using hunmarked kv hmem
  simp only [helmUndeploy, hfalse]

/-- Witness for C6: a release labelled only by helm itself. -/
theorem undeploy_unmarked_release_witness :
    helmUndeploy "gadget" (.ok { labels := [("owner", "helm"), ("app", "gadget")] })
      = .errNotDeployedByDeployer :=
  undeploy_unmarked_release "gadget" { labels := [("owner", "helm"), ("app", "gadget")] }
    (by decide)

/-! ## Deployment probe (tools.go, isInspektorGadgetDeployed lines
536-568)

The cluster pod list (the namespaces of the pods matching the fixed
label selector k8s-app=gadget, or the listing error) is an argument; the
rest-config and client construction failures are folded into the listing
error for brevity, as all three propagate identically. -/

/-- The namespace-collection loop (tools.go lines 557-562): first
occurrence order, duplicates skipped. -/
def collectNamespaces : List String → List String → List String
  | acc, [] => acc
  | acc, ns :: rest =>
    collectNamespaces (if acc.contains ns then acc else acc ++ [ns]) rest

/-- func isInspektorGadgetDeployed applied to the pod-listing outcome:
no pods means not deployed without error; pods spanning more than one
namespace is an error; otherwise deployed in the single namespace. -/
def isInspektorGadgetDeployed (listResult : Except String (List String)) :
    Except String (Bool × String) :=
  match listResult with
  | .error e => .error ("getting pods: " ++ e)
  | .ok pods =>
    if pods.isEmpty then .ok (false, "")
    else
      let namespaces := collectNamespaces [] pods
      if namespaces.length > 1 then
        .error "multiple namespaces found for Inspektor Gadget pods"
      else .ok (true, namespaces.headD "")

theorem mem_collectNamespaces (x : String) :
    ∀ (pods acc : List String), x ∈ acc ∨ x ∈ pods → x ∈ collectNamespaces acc pods := by
  intro pods
  induction pods with
  | nil =>
    intro acc h
    rcases h with h | h
    · exact h
    · simp at h
  | cons ns rest ih =>
    intro acc h
    rw [collectNamespaces]
    have hsub : ∀ y, y ∈ acc → y ∈ (if acc.contains ns then acc else acc ++ [ns]) := by
      intro y hy
      by_cases hc : acc.contains ns
      · rw [if_pos hc]
        exact hy
      · rw [if_neg hc]
        exact List.mem_append_left _ hy
    have hns : ns ∈ (if acc.contains ns then acc else acc ++ [ns]) := by
      by_cases hc : acc.contains ns
      · rw [if_pos hc]
        exact List.elem_iff.mp hc
      · rw [if_neg hc]
        exact List.mem_append_right _ (by simp)
    rcases h with h | h
    · exact ih _ (.inl (hsub x h))
    · rcases List.mem_cons.mp h with rfl | h'
      · exact ih _ (.inl hns)
      · exact ih _ (.inr h')

theorem collectNamespaces_all_eq (n : String) :
    ∀ (pods : List String), (∀ x ∈ pods, x = n) → collectNamespaces [n] pods = [n] := by
  intro pods
  induction pods with
  | nil => intro _; rfl
  | cons ns rest ih =>
    intro h
    have hns : ns = n := h ns (List.mem_cons_self _ _)
    subst hns
    have : ([ns] : List String).contains ns = true := by simp
    simp only [collectNamespaces, this, if_pos]
    exact ih fun x hx => h x (List.mem_cons_of_mem _ hx)

/-- Lists holding two distinct members have length at least two. -/
theorem two_mem_length_lt {α : Type} {l : List α} {a b : α}
    (ha : a ∈ l) (hb : b ∈ l) (hab : a ≠ b) : 1 < l.length := by
  match l with
  | [] => simp at ha
  | [x] =>
    rw [List.mem_singleton] at ha hb
    exact absurd (ha.trans hb.symm) hab
  | x :: y :: rest => simp [Nat.lt_add_of_pos_left]

/-- C7: the deployment probe reports not-deployed without error on zero
matching pods; reports an error (rather than guessing) when the matching
pods span two distinct namespaces; and reports deployed with the single
namespace when all matching pods share it. -/
theorem deployment_probe_correct :
    (isInspektorGadgetDeployed (.ok []) = .ok (false, ""))
    ∧ (∀ (pods : List String) (n₁ n₂ : String), n₁ ∈ pods → n₂ ∈ pods → n₁ ≠ n₂ →
        ∃ e, isInspektorGadgetDeployed (.ok pods) = .error e)
    ∧ (∀ (pods : List String) (n : String), pods ≠ [] → (∀ x ∈ pods, x = n) →
        isInspektorGadgetDeployed (.ok pods) = .ok (true, n)) := by
  refine ⟨rfl, ?_, ?_⟩
  · intro pods n₁ n₂ h₁ h₂ hne
    have hm₁ : n₁ ∈ collectNamespaces [] pods := mem_collectNamespaces n₁ pods [] (.inr h₁)
    have hm₂ : n₂ ∈ collectNamespaces [] pods := mem_collectNamespaces n₂ pods [] (.inr h₂)
    have hlen : 1 < (collectNamespaces [] pods).length := two_mem_length_lt hm₁ hm₂ hne
    have hne' : pods.isEmpty = false := by
      cases pods
      · simp at h₁
      · rfl
    simp only [isInspektorGadgetDeployed, hne', Bool.false_eq_true, if_false, if_pos hlen]
    exact ⟨_, rfl⟩
  · intro pods n hne hall
    match pods, hne with
    | p :: rest, _ =>
      have hp : p = n := hall p (List.mem_cons_self _ _)
      subst hp
      have hcollect : collectNamespaces [] (p :: rest) = [p] := by
        have : collectNamespaces [] (p :: rest) = collectNamespaces [p] rest := by
          simp [collectNamespaces]
        rw [this]
        exact collectNamespaces_all_eq p rest
          (fun x hx => hall x (List.mem_cons_of_mem _ hx))
      simp [isInspektorGadgetDeployed, hcollect]

/-- Witness for C7: two namespaces yield an error, a single namespace is
reported. -/
theorem deployment_probe_correct_witness :
    (∃ e, isInspektorGadgetDeployed (.ok ["gadget", "kube-system"]) = .error e)
    ∧ isInspektorGadgetDeployed (.ok ["gadget", "gadget"]) = .ok (true, "gadget") :=
  ⟨deployment_probe_correct.2.1 ["gadget", "kube-system"] "gadget" "kube-system"
      (by decide) (by decide) (by decide),
    deployment_probe_correct.2.2 ["gadget", "gadget"] "gadget" (by decide) (by decide)⟩

/-! ## Bounded discovery concurrency (tools.go, getGadgetTools lines
357-386)

The fan-out loop acquires a slot on a buffered channel of capacity 8
before spawning each fetch goroutine, and the goroutine releases its
slot when its GetInfo call and result send are done.  The embedding is a
small-step system over the count of not-yet-spawned images, the
goroutines currently holding a slot (exactly the GetInfo calls in
flight), and the finished fetches; a spawn is enabled only while fewer
than 8 slots are held.  Every interleaving of the Go scheduler is a path
of this relation. -/

/-- cap of the semaphore channel: make(chan struct\x7b\x7d, 8). -/
def semCapacity : Nat := 8

/-- A state of the discovery fan-out. -/
structure FetchState where
  pending : Nat
  inflight : Nat
  finished : Nat
deriving DecidableEq

/-- One scheduler step: spawn blocks until a semaphore slot is free,
finish releases the slot of a running fetch. -/
inductive FetchStep : FetchState → FetchState → Prop
  | spawn (p i f : Nat) (hcap : i < semCapacity) :
      FetchStep ⟨p + 1, i, f⟩ ⟨p, i + 1, f⟩
  | finish (p i f : Nat) :
      FetchStep ⟨p, i + 1, f⟩ ⟨p, i, f + 1⟩

/-- States reachable from the start of a batch of n images. -/
inductive FetchReachable (n : Nat) : FetchState → Prop
  | init : FetchReachable n ⟨n, 0, 0⟩
  | step {s t : FetchState} : FetchReachable n s → FetchStep s t → FetchReachable n t

/-- C8: for every batch size and every interleaving of the fan-out, at
most 8 GetInfo calls are in flight at any point: the semaphore bound is
an invariant of every reachable state. -/
theorem fetch_concurrency_bounded (n : Nat) (s : FetchState)
    (hreach : FetchReachable n s) : s.inflight ≤ semCapacity := by
  induction hreach with
  | init => exact Nat.zero_le _
  | step _ hstep ih =>
    cases hstep with
    | spawn p i f hcap => exact hcap
    | finish p i f => exact Nat.le_of_succ_le (by simpa using ih)

/-- Witness for C8: after spawning one fetch of a 100-image batch, one
call is in flight, within the bound. -/
theorem fetch_concurrency_bounded_witness :
    (FetchState.mk 99 1 0).inflight ≤ semCapacity :=
  fetch_concurrency_bounded 100 ⟨99, 1, 0⟩
    (FetchReachable.step FetchReachable.init (FetchStep.spawn 99 0 0 (by decide)))

end IgMcp
